import Mathlib

/-!
Verification development for the hierarchical Hamiltonian decomposition engine
of the scqubits custom-circuit module.  The definitions below are shallow
embeddings of functions and code paths of `scqubits/core/circuit.py` and
`scqubits/core/circuit_utils.py`; each definition's doc comment names the
source lines it transcribes.  Components of the repository that are not part
of the analysed sources (the discretization grid provider, the symbolic
circuit builder, the routines mixin) are modelled from the specification and
are marked `Modelled from the spec:`.
-/

set_option maxRecDepth 4000

/- ------------------------------------------------------------------ -/
/- Symbol-name utilities: circuit_utils.py                             -/
/- ------------------------------------------------------------------ -/

/-- Value of a digit character, as Python's `int` conversion reads it. -/
def digitVal (c : Char) : Nat := c.toNat - 48

/-- Number denoted by a list of digit characters (most significant first). -/
def digitsToNat (ds : List Char) : Nat :=
  ds.foldl (fun acc c => 10 * acc + digitVal c) 0

/-- `get_trailing_number` of circuit_utils.py lines 68-84: `re.search` for
the pattern of one or more digits anchored at the end of the string, giving
the trailing integer, or `None` when the string does not end in a digit.
Strings are embedded as lists of characters. -/
def get_trailing_number (s : List Char) : Option Nat :=
  let revDigits := s.reverse.takeWhile Char.isDigit
  if revDigits.isEmpty then none
  else some (digitsToNat revDigits.reverse)

/-- One iteration of the `var_index_list` loop of `Subsystem.__init__`
(circuit.py lines 170-174): append the trailing number of the operator name
when it exists and is not yet listed. -/
def varIndexStep (lst : List Nat) (name : List Char) : List Nat :=
  match get_trailing_number name with
  | none => lst
  | some varIndex => if varIndex ∈ lst then lst else lst ++ [varIndex]

/-- `Subsystem.__init__` lines 170-175: fold the loop over all operator
names occurring in the subsystem's symbolic Hamiltonian, then sort. -/
def buildVarIndexList (names : List (List Char)) : List Nat :=
  List.insertionSort (· ≤ ·) (names.foldl varIndexStep [])

/- ------------------------------------------------------------------ -/
/- Variable categories: circuit.py, Subsystem.__init__                 -/
/- ------------------------------------------------------------------ -/

/-- The four variable-category lists of `var_categories`
(keys "periodic", "extended", "free", "frozen"). -/
structure VarCategories where
  periodic : List Nat
  extended : List Nat
  free : List Nat
  frozen : List Nat
deriving DecidableEq

/-- `Subsystem.__init__` lines 177-184: each category of the child is the
parent's category list filtered to the indices present in the child's
`var_index_list`. -/
def subsystemVarCategories (parent : VarCategories) (varIndexList : List Nat) :
    VarCategories where
  periodic := parent.periodic.filter (fun i => i ∈ varIndexList)
  extended := parent.extended.filter (fun i => i ∈ varIndexList)
  free := parent.free.filter (fun i => i ∈ varIndexList)
  frozen := parent.frozen.filter (fun i => i ∈ varIndexList)

/-- Claim C9: a symbol name without a trailing integer index gives
`get_trailing_number` = `None`, is skipped by the categorization loop of
`Subsystem.__init__` (no entry in `var_index_list`), and the loop body
raises nothing (the embedded step is a total function). -/
theorem trailing_number_absent_skipped (name : List Char)
    (h : ∀ c, name.getLast? = some c → c.isDigit = false) :
    get_trailing_number name = none ∧
    (∀ lst, varIndexStep lst name = lst) ∧
    (∀ pre post, buildVarIndexList (pre ++ name :: post) =
      buildVarIndexList (pre ++ post)) := by
  have hrev : name.reverse.takeWhile Char.isDigit = [] := by
    cases hn : name.reverse with
    | nil => simp
    | cons c t =>
        have hc : name.getLast? = some c := by
          rw [← List.head?_reverse, hn]; rfl
        have := h c hc
        simp [List.takeWhile, this]
  have hnone : get_trailing_number name = none := by
    simp [get_trailing_number, hrev]
  have hstep : ∀ lst, varIndexStep lst name = lst := by
    intro lst; simp [varIndexStep, hnone]
  refine ⟨hnone, hstep, ?_⟩
  intro pre post
  simp [buildVarIndexList, List.foldl_append, List.foldl_cons, hstep]

/-- Claim C9 witness: the name "abc" (no trailing digits) at a concrete
state of the loop. -/
theorem trailing_number_absent_skipped_witness :
    get_trailing_number (['a', 'b', 'c']) = none ∧
    varIndexStep [4] (['a', 'b', 'c']) = [4] := by
  have h := trailing_number_absent_skipped (['a', 'b', 'c'])
    (by intro c hc; cases hc; decide)
  exact ⟨h.1, h.2.1 [4]⟩

/-- Claim C7: a subsystem's category lists are the parent's lists filtered
to the indices occurring in the subsystem's Hamiltonian (the trailing
numbers of its operator names), and hence subsets of the parent's lists. -/
theorem subsystem_categories_filtered (parent : VarCategories)
    (names : List (List Char)) :
    ((subsystemVarCategories parent (buildVarIndexList names)).periodic =
        parent.periodic.filter (fun i => i ∈ buildVarIndexList names) ∧
      (subsystemVarCategories parent (buildVarIndexList names)).extended =
        parent.extended.filter (fun i => i ∈ buildVarIndexList names) ∧
      (subsystemVarCategories parent (buildVarIndexList names)).free =
        parent.free.filter (fun i => i ∈ buildVarIndexList names) ∧
      (subsystemVarCategories parent (buildVarIndexList names)).frozen =
        parent.frozen.filter (fun i => i ∈ buildVarIndexList names)) ∧
    ((subsystemVarCategories parent (buildVarIndexList names)).periodic ⊆
        parent.periodic ∧
      (subsystemVarCategories parent (buildVarIndexList names)).extended ⊆
        parent.extended ∧
      (subsystemVarCategories parent (buildVarIndexList names)).free ⊆
        parent.free ∧
      (subsystemVarCategories parent (buildVarIndexList names)).frozen ⊆
        parent.frozen) := by
  refine ⟨⟨rfl, rfl, rfl, rfl⟩, ?_, ?_, ?_, ?_⟩ <;>
    exact fun a ha => (List.mem_filter.mp ha).1

/- ------------------------------------------------------------------ -/
/- Basis operator factory, extended variables: circuit_utils.py        -/
/- ------------------------------------------------------------------ -/

/-- Modelled from the spec: the discretization grid provider supplies, for a
(lower bound, upper bound, point count) triple, the grid coordinates
(`Grid1d` with `make_linspace` of scqubits.core.discretization, which is not
among the analysed source files).  `make_linspace` is numpy's `linspace`:
`pt_count` evenly spaced points from `min_val` to `max_val`. -/
structure Grid1d where
  min_val : ℝ
  max_val : ℝ
  pt_count : ℕ

/-- Modelled from the spec: the grid coordinates, numpy `linspace` semantics
(for a single point the coordinate is `min_val`; the formula below reduces
to `min_val` there since the index factor is zero). -/
noncomputable def Grid1d.make_linspace (g : Grid1d) : Fin g.pt_count → ℝ :=
  fun i => g.min_val + (i : ℝ) * (g.max_val - g.min_val) / ((g.pt_count : ℝ) - 1)

/-- `_identity_phi` of circuit_utils.py lines 109-123: identity of size
`pt_count` in the discretized flux basis. -/
noncomputable def identityPhi (g : Grid1d) :
    Matrix (Fin g.pt_count) (Fin g.pt_count) ℝ := 1

/-- `_phi_operator` of circuit_utils.py lines 126-144: diagonal matrix whose
diagonal holds the grid coordinates. -/
noncomputable def phiOperator (g : Grid1d) :
    Matrix (Fin g.pt_count) (Fin g.pt_count) ℝ :=
  Matrix.diagonal g.make_linspace

/-- `_cos_phi` of circuit_utils.py lines 179-197: diagonal matrix of
`np.cos` applied to the grid coordinates. -/
noncomputable def cosPhi (g : Grid1d) :
    Matrix (Fin g.pt_count) (Fin g.pt_count) ℝ :=
  Matrix.diagonal fun i => Real.cos (g.make_linspace i)

/-- `_sin_phi` of circuit_utils.py lines 200-218, transcribed faithfully:
the code fills the diagonal with `np.cos(grid.make_linspace())` (line 216),
although its docstring announces the sin operator. -/
noncomputable def sinPhi (g : Grid1d) :
    Matrix (Fin g.pt_count) (Fin g.pt_count) ℝ :=
  Matrix.diagonal fun i => Real.cos (g.make_linspace i)

/-- The single-point grid at flux coordinate 0. -/
def zeroGrid : Grid1d := { min_val := 0, max_val := 0, pt_count := 1 }

/-- Claim C2: the trig factories apply the corresponding elementwise
function to the grid coordinates.  `_cos_phi` does (first two conjuncts),
but `_sin_phi` applies the cosine as well: on the one-point grid at 0 it
coincides with `_cos_phi` and differs from the diagonal matrix of the
elementwise sine, refuting the sine half of the claim on the code. -/
theorem sin_phi_applies_cos :
    phiOperator zeroGrid = Matrix.diagonal zeroGrid.make_linspace ∧
    cosPhi zeroGrid =
      Matrix.diagonal (fun i => Real.cos (zeroGrid.make_linspace i)) ∧
    sinPhi zeroGrid = cosPhi zeroGrid ∧
    sinPhi zeroGrid ≠
      Matrix.diagonal (fun i => Real.sin (zeroGrid.make_linspace i)) := by
  refine ⟨rfl, rfl, rfl, ?_⟩
  intro h
  have h0 := congrFun (congrFun h ⟨0, Nat.zero_lt_one⟩) ⟨0, Nat.zero_lt_one⟩
  have hcoord : ∀ i : Fin zeroGrid.pt_count, zeroGrid.make_linspace i = 0 := by
    intro i
    simp [Grid1d.make_linspace, zeroGrid]
  simp only [sinPhi, Matrix.diagonal_apply_eq, hcoord] at h0
  rw [Real.cos_zero, Real.sin_zero] at h0
  exact one_ne_zero h0

/- ------------------------------------------------------------------ -/
/- Basis operator factory, periodic variables: circuit_utils.py        -/
/- ------------------------------------------------------------------ -/

/-- `_identity_theta` of circuit_utils.py lines 221-226: identity of size
`2 * ncut + 1` in the charge basis. -/
noncomputable def identityTheta (ncut : ℕ) :
    Matrix (Fin (2 * ncut + 1)) (Fin (2 * ncut + 1)) ℂ := 1

/-- `_n_theta_operator` of circuit_utils.py lines 229-238: diagonal matrix
built from `np.arange(-ncut, ncut + 1)`, so the entry at diagonal position
`i` is `i - ncut`. -/
noncomputable def nThetaOperator (ncut : ℕ) :
    Matrix (Fin (2 * ncut + 1)) (Fin (2 * ncut + 1)) ℂ :=
  Matrix.diagonal fun i => ((i : ℕ) : ℂ) - (ncut : ℂ)

/-- `_exp_i_theta_operator` of circuit_utils.py lines 241-250:
`dia_matrix` of all ones at offset +1, i.e. entry `(i, i+1) = 1`. -/
noncomputable def expIThetaOperator (ncut : ℕ) :
    Matrix (Fin (2 * ncut + 1)) (Fin (2 * ncut + 1)) ℂ :=
  fun i j => if (j : ℕ) = (i : ℕ) + 1 then 1 else 0

/-- `_exp_i_theta_operator_conjugate` of circuit_utils.py lines 253-262:
`dia_matrix` of all ones at offset -1, i.e. entry `(j+1, j) = 1`. -/
noncomputable def expIThetaOperatorConjugate (ncut : ℕ) :
    Matrix (Fin (2 * ncut + 1)) (Fin (2 * ncut + 1)) ℂ :=
  fun i j => if (i : ℕ) = (j : ℕ) + 1 then 1 else 0

/-- `_cos_theta` of circuit_utils.py lines 265-268:
`0.5 * (E₊ + E₋)`. -/
noncomputable def cosTheta (ncut : ℕ) :
    Matrix (Fin (2 * ncut + 1)) (Fin (2 * ncut + 1)) ℂ :=
  (1 / 2 : ℂ) • (expIThetaOperator ncut + expIThetaOperatorConjugate ncut)

/-- `_sin_theta` of circuit_utils.py lines 271-278:
`-1j * 0.5 * (E₊ - E₋)`. -/
noncomputable def sinTheta (ncut : ℕ) :
    Matrix (Fin (2 * ncut + 1)) (Fin (2 * ncut + 1)) ℂ :=
  (-Complex.I * (1 / 2 : ℂ)) • (expIThetaOperator ncut - expIThetaOperatorConjugate ncut)

/-- Claim C3: for cutoff `ncut` the charge-basis factories give: identity of
size `2 ncut + 1`; the charge operator diagonal with exactly the integers
`-ncut..ncut`; raising and lowering generators that are single off-diagonal
matrices of ones at offsets +1 and -1; cosine `½(E₊+E₋)` and sine
`-i/2(E₊-E₋)`, with the resulting entries on the two off-diagonals. -/
theorem charge_basis_operators (ncut : ℕ) :
    (Fintype.card (Fin (2 * ncut + 1)) = 2 * ncut + 1 ∧
      identityTheta ncut = 1) ∧
    ((∀ i, nThetaOperator ncut i i = ((i : ℕ) : ℂ) - (ncut : ℂ)) ∧
      (∀ i j, i ≠ j → nThetaOperator ncut i j = 0) ∧
      (∀ k : ℤ, -(ncut : ℤ) ≤ k → k ≤ (ncut : ℤ) →
        ∃ i, nThetaOperator ncut i i = (k : ℂ))) ∧
    ((∀ i j, expIThetaOperator ncut i j =
        if (j : ℕ) = (i : ℕ) + 1 then 1 else 0) ∧
      (∀ i j, expIThetaOperatorConjugate ncut i j =
        if (i : ℕ) = (j : ℕ) + 1 then 1 else 0)) ∧
    (cosTheta ncut =
        (1 / 2 : ℂ) • (expIThetaOperator ncut + expIThetaOperatorConjugate ncut) ∧
      (∀ i j, cosTheta ncut i j =
        if (j : ℕ) = (i : ℕ) + 1 ∨ (i : ℕ) = (j : ℕ) + 1 then 1 / 2 else 0)) ∧
    (sinTheta ncut =
        (-(Complex.I / 2)) • (expIThetaOperator ncut - expIThetaOperatorConjugate ncut) ∧
      (∀ i j, sinTheta ncut i j =
        if (j : ℕ) = (i : ℕ) + 1 then -(Complex.I / 2)
        else if (i : ℕ) = (j : ℕ) + 1 then Complex.I / 2 else 0)) := by
  refine ⟨⟨by simp, rfl⟩, ⟨?_, ?_, ?_⟩, ⟨fun i j => rfl, fun i j => rfl⟩,
    ⟨rfl, ?_⟩, ⟨?_, ?_⟩⟩
  · intro i; simp [nThetaOperator]
  · intro i j hij; simp [nThetaOperator, Matrix.diagonal_apply_ne _ hij]
  · intro k hk1 hk2
    refine ⟨⟨(k + ncut).toNat, ?_⟩, ?_⟩
    · have h1 : (0 : ℤ) ≤ k + ncut := by omega
      have h2 : k + (ncut : ℤ) ≤ 2 * ncut := by omega
      omega
    · have h1 : (0 : ℤ) ≤ k + ncut := by omega
      simp only [nThetaOperator, Matrix.diagonal_apply_eq]
      have : (((k + (ncut : ℤ)).toNat : ℕ) : ℂ) = ((k + ncut : ℤ) : ℂ) := by
        rw [← Int.cast_natCast, Int.toNat_of_nonneg h1]
      rw [this]
      push_cast
      ring
  · intro i j
    simp only [cosTheta, Matrix.smul_apply, Matrix.add_apply,
      expIThetaOperator, expIThetaOperatorConjugate]
    by_cases h1 : (j : ℕ) = (i : ℕ) + 1 <;> by_cases h2 : (i : ℕ) = (j : ℕ) + 1
    · omega
    · rw [if_pos h1, if_neg h2, if_pos (Or.inl h1), smul_eq_mul]; ring
    · rw [if_neg h1, if_pos h2, if_pos (Or.inr h2), smul_eq_mul]; ring
    · rw [if_neg h1, if_neg h2, if_neg (by tauto), smul_eq_mul]; ring
  · unfold sinTheta
    congr 1
    ring
  · intro i j
    simp only [sinTheta, Matrix.smul_apply, Matrix.sub_apply,
      expIThetaOperator, expIThetaOperatorConjugate]
    by_cases h1 : (j : ℕ) = (i : ℕ) + 1 <;> by_cases h2 : (i : ℕ) = (j : ℕ) + 1
    · omega
    · rw [if_pos h1, if_neg h2, if_pos h1, smul_eq_mul]; ring
    · rw [if_neg h1, if_pos h2, if_neg h1, if_pos h2, smul_eq_mul]; ring
    · rw [if_neg h1, if_neg h2, if_neg h1, if_neg h2, smul_eq_mul]; ring

/-- Claim C3 witness: at cutoff 1 the charge diagonal reaches the value -1
(an inner bound hypothesis of the surjectivity conjunct discharged at the
concrete integer -1). -/
theorem charge_basis_operators_witness :
    ∃ i : Fin (2 * 1 + 1), nThetaOperator 1 i i = ((-1 : ℤ) : ℂ) :=
  (charge_basis_operators 1).2.1.2.2 (-1) (by norm_num) (by norm_num)

/- ------------------------------------------------------------------ -/
/- Hierarchy and truncation specifications                             -/
/- ------------------------------------------------------------------ -/

/-- An entry of `system_hierarchy`: a bare variable index or a nested list
of entries (Python `List[Union[int, list]]`). -/
inductive Hent : Type
  | idx (n : ℕ) : Hent
  | node (children : List Hent) : Hent

/-- Whether a hierarchy entry is itself a list (what the utility
`number_of_lists_in_list` counts at the top level, used in circuit.py lines
1144-1147 and 224-226 through `number_of_lists_in_list(...) > 0`). -/
def Hent.isNode : Hent → Bool
  | .idx _ => false
  | .node _ => true

/-- Whether a hierarchy entry is a bare index. -/
def Hent.isIdx : Hent → Bool
  | .idx _ => true
  | .node _ => false

/-- An entry of `subsystem_trunc_dims`: a truncation integer for a flat
subsystem, or `[combined dim, nested spec]` for a nested subsystem
(the shape produced by `truncation_template`, circuit_utils.py lines
34-65). -/
inductive Tent : Type
  | dim (d : ℕ) : Tent
  | comb (d : ℕ) (sub : List Tent) : Tent

mutual

/-- Modelled from the spec: a hierarchy entry and a truncation entry share
the same nested shape (a flat index list pairs with a bare integer, a
nested hierarchy pairs with `[int, nested spec]` whose nested spec matches
child by child).  The check itself lives in `generate_subsystems` of the
routines mixin, which is not among the analysed source files; the spec
states "`system_hierarchy` and `subsystem_trunc_dims` must share identical
nested shape; mismatch is fatal". -/
def entShape : Hent → Tent → Bool
  | .idx _, .dim _ => true
  | .idx _, .comb _ _ => false
  | .node cs, .dim _ => cs.all Hent.isIdx
  | .node cs, .comb _ ts => (!cs.all Hent.isIdx) && listShape cs ts

/-- Modelled from the spec: entrywise shape agreement of a hierarchy list
with a truncation list. -/
def listShape : List Hent → List Tent → Bool
  | [], [] => true
  | h :: hs, t :: ts => entShape h t && listShape hs ts
  | _, _ => false

end

/- ------------------------------------------------------------------ -/
/- Circuit.configure and its rollback: circuit.py lines 763-842        -/
/- ------------------------------------------------------------------ -/

/-- Python's `x or y` for optional list-valued arguments (used in
circuit.py lines 1030-1032): `None` and the empty list are falsy. -/
def pyOrL {α : Type} (a b : Option (List α)) : Option (List α) :=
  match a with
  | none => b
  | some [] => b
  | some l => some l

/-- The errors a configure call can surface: a failure inside
`symbolic_circuit.configure`, the missing-truncation check of circuit.py
lines 1157-1161, the shape check of `generate_subsystems` (modelled from
the spec), the truncation-size check `_check_truncation_indices`, and the
`RuntimeError` re-raised at circuit.py line 842. -/
inductive CfgErr
  | scConfigureFailed
  | truncDimsNotSet
  | shapeMismatch
  | truncTooLarge
  | configureFailed

/-- The mutable configuration fields of a `Circuit` instance that
`configure` snapshots and restores (circuit.py lines 800-808), plus the
`hierarchical_diagonalization` flag and the `is_flux_dynamic` flag of its
symbolic circuit.  The transformation matrix and closure-branch payloads
are opaque to the rollback logic and are abstracted by the type parameters
`TM` and `B`. -/
structure CfgState (TM B : Type) where
  system_hierarchy : Option (List Hent)
  subsystem_trunc_dims : Option (List Tent)
  transformation_matrix : TM
  closure_branches : Option (List B)
  hierarchical_diagonalization : Bool
  is_flux_dynamic : Bool

/-- `Circuit._configure` (circuit.py lines 995-1173), restricted to the
writes that touch the four snapshotted fields, in source order: effective
arguments via Python `or` (lines 1030-1037); `hierarchical_diagonalization`
(line 1039); `symbolic_circuit.configure` (lines 1043-1046, abstracted as
`scConf`, which may raise); the attribute copy of `transformation_matrix`
and `closure_branches` (lines 1048-1069); the recomputation of
`hierarchical_diagonalization` (lines 1144-1147); then the hierarchical
branch (lines 1152-1169): write `system_hierarchy`, raise when
`subsystem_trunc_dims` is `None`, write it, and run `generate_subsystems`
(shape check, modelled from the spec) and `_check_truncation_indices`
(abstracted as `truncOk`).  The returned pair is the mutated state together
with the raised error, if any. -/
def configureInner {TM B : Type}
    (scConf : TM → Option (List B) → Except CfgErr (TM × List B))
    (truncOk : List Hent → List Tent → Bool) (s : CfgState TM B)
    (argTM : Option TM) (argH : Option (List Hent))
    (argT : Option (List Tent)) (argCB : Option (List B)) :
    CfgState TM B × Option CfgErr :=
  let effH := pyOrL argH s.system_hierarchy
  let effT := pyOrL argT s.subsystem_trunc_dims
  let effCB := pyOrL argCB s.closure_branches
  let effTM := argTM.getD s.transformation_matrix
  let s := { s with hierarchical_diagonalization := effH.isSome }
  match scConf effTM effCB with
  | .error e => (s, some e)
  | .ok (tm', cb') =>
    let s := { s with transformation_matrix := tm', closure_branches := some cb' }
    let hd := match effH with
      | none => s.hierarchical_diagonalization
      | some h => !h.isEmpty && h.any Hent.isNode
    let s := { s with hierarchical_diagonalization := hd }
    if hd then
      let s := { s with system_hierarchy := effH }
      match effT with
      | none => (s, some .truncDimsNotSet)
      | some ts =>
        let s := { s with subsystem_trunc_dims := some ts }
        match effH with
        | some hs =>
          if !listShape hs ts then (s, some .shapeMismatch)
          else if !truncOk hs ts then (s, some .truncTooLarge)
          else (s, none)
        | none => (s, none)
    else (s, none)

/-- `Circuit.configure` (circuit.py lines 763-842), yaml-initialized path
(`hasattr(self, "symbolic_circuit")` holds): snapshot the four mutable
fields (the closure-branch snapshot is `None` under dynamic flux, lines
804-808), try `_configure`; on any exception restore the four fields from
the snapshot, re-run `_configure` with the snapshot values, and raise a
single `RuntimeError` (line 842) — unless the re-run itself raises, in
which case that error propagates out of the except block. -/
def configureCall {TM B : Type}
    (scConf : TM → Option (List B) → Except CfgErr (TM × List B))
    (truncOk : List Hent → List Tent → Bool) (s : CfgState TM B)
    (argTM : Option TM) (argH : Option (List Hent))
    (argT : Option (List Tent)) (argCB : Option (List B)) :
    CfgState TM B × Option CfgErr :=
  let oldH := s.system_hierarchy
  let oldT := s.subsystem_trunc_dims
  let oldTM := s.transformation_matrix
  let oldCB := if s.is_flux_dynamic then none else s.closure_branches
  let r1 := configureInner scConf truncOk s argTM argH argT argCB
  match r1.2 with
  | none => r1
  | some _ =>
    let s2 := { r1.1 with system_hierarchy := oldH, subsystem_trunc_dims := oldT,
                          transformation_matrix := oldTM, closure_branches := oldCB }
    let r2 := configureInner scConf truncOk s2 (some oldTM) oldH oldT oldCB
    match r2.2 with
    | none => (r2.1, some .configureFailed)
    | some e => (r2.1, some e)
theorem pyOrL_self {α : Type} (a : Option (List α)) : pyOrL a a = a := by
  match a with
  | none => rfl
  | some [] => rfl
  | some (x :: xs) => rfl

theorem configureInner_rerun_fields {TM B : Type}
    (scConf : TM → Option (List B) → Except CfgErr (TM × List B))
    (truncOk : List Hent → List Tent → Bool) (t : CfgState TM B) (cb0 : List B)
    (hsc : scConf t.transformation_matrix t.closure_branches =
      Except.ok (t.transformation_matrix, cb0)) :
    (configureInner scConf truncOk t (some t.transformation_matrix)
        t.system_hierarchy t.subsystem_trunc_dims t.closure_branches).1.system_hierarchy
        = t.system_hierarchy ∧
    (configureInner scConf truncOk t (some t.transformation_matrix)
        t.system_hierarchy t.subsystem_trunc_dims t.closure_branches).1.subsystem_trunc_dims
        = t.subsystem_trunc_dims ∧
    (configureInner scConf truncOk t (some t.transformation_matrix)
        t.system_hierarchy t.subsystem_trunc_dims t.closure_branches).1.transformation_matrix
        = t.transformation_matrix ∧
    (configureInner scConf truncOk t (some t.transformation_matrix)
        t.system_hierarchy t.subsystem_trunc_dims t.closure_branches).1.closure_branches
        = some cb0 := by
  simp only [configureInner, pyOrL_self, Option.getD_some, hsc]
  cases hH : t.system_hierarchy with
  | none => simp
  | some h =>
    cases hT : t.subsystem_trunc_dims with
    | none =>
      by_cases hhd : (!h.isEmpty && h.any Hent.isNode) = true <;> simp [hhd, hH]
    | some ts =>
      by_cases hhd : (!h.isEmpty && h.any Hent.isNode) = true <;>
        by_cases hsh : (!listShape h ts) = true <;>
        by_cases htr : (!truncOk h ts) = true <;>
        simp [hhd, hsh, htr, hH, hT]

/-- Claim C1: a `configure` call that fails surfaces a single error, and the
caller observes `system_hierarchy`, `subsystem_trunc_dims`,
`transformation_matrix` and `closure_branches` all equal to their pre-call
values.  The hypotheses say the pre-call state is consistent: its closure
branches are set, and re-running `symbolic_circuit.configure` on the
snapshot values echoes the stored transformation matrix and closure
branches (which holds for any state produced by a successful configure,
`symbolic_circuit.configure` being deterministic). -/
theorem configure_error_restores_state {TM B : Type}
    (scConf : TM → Option (List B) → Except CfgErr (TM × List B))
    (truncOk : List Hent → List Tent → Bool) (s : CfgState TM B)
    (argTM : Option TM) (argH : Option (List Hent)) (argT : Option (List Tent))
    (argCB : Option (List B)) (cb0 : List B)
    (hcb : s.closure_branches = some cb0)
    (hecho : scConf s.transformation_matrix
        (if s.is_flux_dynamic then none else s.closure_branches) =
      Except.ok (s.transformation_matrix, cb0))
    (hfail : (configureCall scConf truncOk s argTM argH argT argCB).2.isSome = true) :
    (configureCall scConf truncOk s argTM argH argT argCB).1.system_hierarchy =
        s.system_hierarchy ∧
    (configureCall scConf truncOk s argTM argH argT argCB).1.subsystem_trunc_dims =
        s.subsystem_trunc_dims ∧
    (configureCall scConf truncOk s argTM argH argT argCB).1.transformation_matrix =
        s.transformation_matrix ∧
    (configureCall scConf truncOk s argTM argH argT argCB).1.closure_branches =
        s.closure_branches := by
  simp only [configureCall] at hfail ⊢
  rcases h1 : configureInner scConf truncOk s argTM argH argT argCB with ⟨s1, o1⟩
  cases o1 with
  | none =>
    rw [h1] at hfail
    simp at hfail
  | some e1 =>
    dsimp only
    set t : CfgState TM B :=
      { s1 with system_hierarchy := s.system_hierarchy,
                subsystem_trunc_dims := s.subsystem_trunc_dims,
                transformation_matrix := s.transformation_matrix,
                closure_branches :=
                  if s.is_flux_dynamic then none else s.closure_branches } with htdef
    have hsc : scConf t.transformation_matrix t.closure_branches =
        Except.ok (t.transformation_matrix, cb0) := hecho
    have hfields := configureInner_rerun_fields scConf truncOk t cb0 hsc
    rcases h2 : configureInner scConf truncOk t (some s.transformation_matrix)
        s.system_hierarchy s.subsystem_trunc_dims
        (if s.is_flux_dynamic then none else s.closure_branches) with ⟨s3, o3⟩
    have h2' : configureInner scConf truncOk t (some t.transformation_matrix)
        t.system_hierarchy t.subsystem_trunc_dims t.closure_branches = (s3, o3) := h2
    rw [h2'] at hfields
    cases o3 with
    | none => exact ⟨hfields.1, hfields.2.1, hfields.2.2.1, hfields.2.2.2.trans hcb.symm⟩
    | some e3 => exact ⟨hfields.1, hfields.2.1, hfields.2.2.1, hfields.2.2.2.trans hcb.symm⟩

/-- A concrete `symbolic_circuit.configure` model for witnesses: echo the
transformation matrix, fixed closure branches. -/
def scConfW : ℕ → Option (List ℕ) → Except CfgErr (ℕ × List ℕ) :=
  fun tm _ => Except.ok (tm, [3])

/-- A concrete `_check_truncation_indices` model that always reports a
truncation too large for the subsystem dimension. -/
def truncOkW : List Hent → List Tent → Bool := fun _ _ => false

/-- A concrete consistent pre-call state. -/
def cfgStateW : CfgState ℕ ℕ :=
  { system_hierarchy := none, subsystem_trunc_dims := none,
    transformation_matrix := 4, closure_branches := some [3],
    hierarchical_diagonalization := false, is_flux_dynamic := false }

/-- Claim C1 witness: a configure call on a consistent flat circuit that
fails in `_check_truncation_indices` surfaces an error while all four
snapshotted fields keep their pre-call values. -/
theorem configure_error_restores_state_witness :
    (configureCall scConfW truncOkW cfgStateW none (some [Hent.node [Hent.idx 1]])
        (some [Tent.dim 6]) none).2.isSome = true ∧
    (configureCall scConfW truncOkW cfgStateW none (some [Hent.node [Hent.idx 1]])
        (some [Tent.dim 6]) none).1.system_hierarchy = none ∧
    (configureCall scConfW truncOkW cfgStateW none (some [Hent.node [Hent.idx 1]])
        (some [Tent.dim 6]) none).1.subsystem_trunc_dims = none ∧
    (configureCall scConfW truncOkW cfgStateW none (some [Hent.node [Hent.idx 1]])
        (some [Tent.dim 6]) none).1.transformation_matrix = 4 ∧
    (configureCall scConfW truncOkW cfgStateW none (some [Hent.node [Hent.idx 1]])
        (some [Tent.dim 6]) none).1.closure_branches = some [3] := by
  have h := configure_error_restores_state scConfW truncOkW cfgStateW none
    (some [Hent.node [Hent.idx 1]]) (some [Tent.dim 6]) none [3] rfl rfl rfl
  exact ⟨rfl, h.1, h.2.1, h.2.2.1, h.2.2.2⟩

/-- An inner-configure error makes the enclosing `configure` call fail too:
the except block re-raises (`RuntimeError`, line 842) or, when the
restoring re-run itself raises, propagates that error. -/
theorem configureCall_error_of_inner {TM B : Type}
    (scConf : TM → Option (List B) → Except CfgErr (TM × List B))
    (truncOk : List Hent → List Tent → Bool) (s : CfgState TM B)
    (argTM : Option TM) (argH : Option (List Hent)) (argT : Option (List Tent))
    (argCB : Option (List B))
    (h : (configureInner scConf truncOk s argTM argH argT argCB).2.isSome = true) :
    (configureCall scConf truncOk s argTM argH argT argCB).2.isSome = true := by
  simp only [configureCall]
  rcases h1 : configureInner scConf truncOk s argTM argH argT argCB with ⟨s1, o1⟩
  rw [h1] at h
  cases o1 with
  | none => simp at h
  | some e1 =>
    dsimp only
    rcases h2 : configureInner scConf truncOk
        { s1 with system_hierarchy := s.system_hierarchy,
                  subsystem_trunc_dims := s.subsystem_trunc_dims,
                  transformation_matrix := s.transformation_matrix,
                  closure_branches :=
                    if s.is_flux_dynamic then none else s.closure_branches }
        (some s.transformation_matrix) s.system_hierarchy s.subsystem_trunc_dims
        (if s.is_flux_dynamic then none else s.closure_branches) with ⟨s3, o3⟩
    cases o3 with
    | none => rfl
    | some e3 => rfl

/-- Claim C5: a configure call whose effective `system_hierarchy` activates
hierarchical diagonalization while the effective `subsystem_trunc_dims`
does not share its nested shape (in particular when it is `None`) raises a
fatal configuration error, both from `_configure` and from the enclosing
`configure`. -/
theorem trunc_dims_shape_mismatch_fatal {TM B : Type}
    (scConf : TM → Option (List B) → Except CfgErr (TM × List B))
    (truncOk : List Hent → List Tent → Bool) (s : CfgState TM B)
    (argTM : Option TM) (argH : Option (List Hent)) (argT : Option (List Tent))
    (argCB : Option (List B)) (hs : List Hent)
    (hH : pyOrL argH s.system_hierarchy = some hs)
    (hact : (!hs.isEmpty && hs.any Hent.isNode) = true)
    (hshape : ∀ ts, pyOrL argT s.subsystem_trunc_dims = some ts →
      listShape hs ts = false) :
    (configureInner scConf truncOk s argTM argH argT argCB).2.isSome = true ∧
    (configureCall scConf truncOk s argTM argH argT argCB).2.isSome = true := by
  have hinner :
      (configureInner scConf truncOk s argTM argH argT argCB).2.isSome = true := by
    simp only [configureInner, hH]
    cases hsc : scConf (argTM.getD s.transformation_matrix)
        (pyOrL argCB s.closure_branches) with
    | error e => simp
    | ok p =>
      simp only [hact]
      cases hT : pyOrL argT s.subsystem_trunc_dims with
      | none => simp
      | some ts =>
        have hts := hshape ts hT
        simp [hts]
  exact ⟨hinner, configureCall_error_of_inner scConf truncOk s argTM argH argT argCB hinner⟩

/-- Claim C5 witness: requesting hierarchical diagonalization while leaving
`subsystem_trunc_dims` unset makes the configure call fail. -/
theorem trunc_dims_shape_mismatch_fatal_witness :
    (configureCall scConfW (fun _ _ => true) cfgStateW none
        (some [Hent.node [Hent.idx 1]]) none none).2.isSome = true := by
  have h := trunc_dims_shape_mismatch_fatal scConfW (fun _ _ => true) cfgStateW none
    (some [Hent.node [Hent.idx 1]]) none none [Hent.node [Hent.idx 1]] rfl rfl
    (fun ts hts => nomatch hts)
  exact h.2

/- ------------------------------------------------------------------ -/
/- Matrix representation type and the purely harmonic override         -/
/- ------------------------------------------------------------------ -/

/-- The `ext_basis` setting ("discretized" or "harmonic"). -/
inductive ExtBasis
  | discretized
  | harmonic
deriving DecidableEq

/-- The `type_of_matrices` setting ("sparse" or "dense"). -/
inductive MatType
  | dense
  | sparse
deriving DecidableEq

/-- `Subsystem.__init__` lines 232-235: dense when the subsystem has exactly
one variable index and the ext basis inherited from the parent at
construction time is harmonic, sparse otherwise (if/else, both branches
written). -/
def subsystemTypeOfMatrices (nvars : ℕ) (basis : ExtBasis) : MatType :=
  if nvars = 1 ∧ basis = ExtBasis.harmonic then MatType.dense else MatType.sparse

/-- `Circuit._configure` lines 1123-1128: set dense when the flattened
variable categories hold exactly one index and the ext basis is harmonic;
there is no else branch, so in every other case `type_of_matrices` keeps
its previous value (initially sparse from `__init__`, circuit.py lines
461-463 and 563-565). -/
def circuitTypeOfMatricesUpdate (prev : MatType) (vc : VarCategories)
    (basis : ExtBasis) : MatType :=
  if (vc.periodic ++ vc.extended ++ vc.free ++ vc.frozen).length = 1 ∧
      basis = ExtBasis.harmonic then
    MatType.dense
  else prev

/-- `Circuit._configure` lines 1066-1077 (and the symbolic-Hamiltonian path
lines 894-910): when the symbolic circuit is classified purely harmonic,
warn if the configured ext basis is not harmonic and overwrite it with
harmonic; no error is raised on this path.  Returns the resulting basis and
whether the warning fired. -/
def circuitHarmonicOverride (isPurelyHarmonic : Bool) (basis : ExtBasis) :
    ExtBasis × Bool :=
  if isPurelyHarmonic then
    if basis ≠ ExtBasis.harmonic then (ExtBasis.harmonic, true)
    else (basis, false)
  else (basis, false)

/-- `Subsystem._configure` lines 292-299: when the subsystem Hamiltonian is
purely harmonic, silently switch `_ext_basis` to harmonic; no error is
raised on this path. -/
def subsystemHarmonicOverride (isPurelyHarmonic : Bool) (basis : ExtBasis) :
    ExtBasis :=
  if isPurelyHarmonic then ExtBasis.harmonic else basis

/-- `Subsystem.__init__` ordering (lines 232-235 then 247, 292-299): the
matrix type is fixed from the parent-inherited basis, after which
`_configure` may override the basis for purely harmonic Hamiltonians; the
matrix type is not recomputed.  Returns (type_of_matrices, final basis). -/
def subsystemConstructed (nvars : ℕ) (parentBasis : ExtBasis)
    (isPurelyHarmonic : Bool) : MatType × ExtBasis :=
  (subsystemTypeOfMatrices nvars parentBasis,
    subsystemHarmonicOverride isPurelyHarmonic parentBasis)

/-- Claim C6 counterexample: a single-variable purely harmonic subsystem of
a discretized-basis parent ends configuration with the harmonic basis but a
sparse matrix type, so "dense exactly when one degree of freedom and
harmonic basis" fails on the code. -/
theorem dense_iff_single_harmonic_counterexample :
    (subsystemConstructed 1 ExtBasis.discretized true).2 = ExtBasis.harmonic ∧
    (subsystemConstructed 1 ExtBasis.discretized true).1 ≠ MatType.dense := by
  decide

/-- Claim C6 as amended: a Subsystem's type is dense exactly when it has one
variable and the basis inherited at construction time (before the purely
harmonic override) is harmonic; a Circuit's configure sets dense exactly
under the one-variable harmonic condition and otherwise leaves the previous
type in place, so the sparse half of the claim holds only when the previous
type is sparse (as on the first configure after `__init__`). -/
theorem dense_iff_single_harmonic_amended :
    (∀ n b, subsystemTypeOfMatrices n b = MatType.dense ↔
      (n = 1 ∧ b = ExtBasis.harmonic)) ∧
    (∀ n b pure, (subsystemConstructed n b pure).1 = MatType.dense ↔
      (n = 1 ∧ b = ExtBasis.harmonic)) ∧
    (∀ vc b prev,
      ((vc.periodic ++ vc.extended ++ vc.free ++ vc.frozen).length = 1 ∧
          b = ExtBasis.harmonic) →
        circuitTypeOfMatricesUpdate prev vc b = MatType.dense) ∧
    (∀ vc b, circuitTypeOfMatricesUpdate MatType.sparse vc b = MatType.dense ↔
      ((vc.periodic ++ vc.extended ++ vc.free ++ vc.frozen).length = 1 ∧
        b = ExtBasis.harmonic)) ∧
    (∀ vc b prev,
      ¬((vc.periodic ++ vc.extended ++ vc.free ++ vc.frozen).length = 1 ∧
          b = ExtBasis.harmonic) →
        circuitTypeOfMatricesUpdate prev vc b = prev) := by
  refine ⟨?_, ?_, ?_, ?_, ?_⟩
  · intro n b
    constructor
    · intro h
      by_contra hc
      simp [subsystemTypeOfMatrices, hc] at h
    · intro h; simp [subsystemTypeOfMatrices, h]
  · intro n b pure
    constructor
    · intro h
      by_contra hc
      simp [subsystemConstructed, subsystemTypeOfMatrices, hc] at h
    · intro h; simp [subsystemConstructed, subsystemTypeOfMatrices, h]
  · intro vc b prev h
    unfold circuitTypeOfMatricesUpdate
    rw [if_pos h]
  · intro vc b
    constructor
    · intro h
      by_contra hc
      unfold circuitTypeOfMatricesUpdate at h
      rw [if_neg hc] at h
      exact MatType.noConfusion h
    · intro h
      unfold circuitTypeOfMatricesUpdate
      rw [if_pos h]
  · intro vc b prev h
    unfold circuitTypeOfMatricesUpdate
    rw [if_neg h]

/-- Claim C10: after configuration, a purely harmonic classification forces
the harmonic extended basis, on the Circuit path signalled by a warning
exactly when the user basis was not already harmonic, and on both paths
without raising (the embedded override is a total function with no error
outcome). -/
theorem purely_harmonic_forces_harmonic_basis (isPure : Bool) (basis : ExtBasis)
    (h : isPure = true) :
    (circuitHarmonicOverride isPure basis).1 = ExtBasis.harmonic ∧
    ((circuitHarmonicOverride isPure basis).2 = true ↔ basis ≠ ExtBasis.harmonic) ∧
    subsystemHarmonicOverride isPure basis = ExtBasis.harmonic := by
  subst h
  cases basis <;>
    simp [circuitHarmonicOverride, subsystemHarmonicOverride]

/-- Claim C10 witness: a purely harmonic circuit configured with the
discretized basis ends with the harmonic basis and the warning fired. -/
theorem purely_harmonic_forces_harmonic_basis_witness :
    (circuitHarmonicOverride true ExtBasis.discretized).1 = ExtBasis.harmonic ∧
    (circuitHarmonicOverride true ExtBasis.discretized).2 = true := by
  have h := purely_harmonic_forces_harmonic_basis true ExtBasis.discretized rfl
  exact ⟨h.1, h.2.1.mpr (by decide)⟩

/- ------------------------------------------------------------------ -/
/- set_discretized_phi_range: circuit.py lines 600-625                 -/
/- ------------------------------------------------------------------ -/

/-- The two validation failures of `set_discretized_phi_range`: wrong
`ext_basis` (circuit.py lines 614-618) and a variable index that is not an
extended variable (lines 620-623). -/
inductive PhiErr
  | basisNotDiscretized
  | varNotExtended
deriving DecidableEq

/-- The state `set_discretized_phi_range` reads and writes: the `ext_basis`
property, the extended-variable index list of `var_categories`, the
`discretized_phi_range` dict (a map from variable index to an opaque range
payload `R`), and a flag standing for the final `set_operators`
regeneration (line 625).  The range payload type is abstract: the method
stores it without computing on it. -/
structure PhiState (R : Type) where
  ext_basis : ExtBasis
  extended : List ℕ
  discretized_phi_range : ℕ → Option R
  operators_regenerated : Bool

/-- The `for var_index in var_indices` loop of circuit.py lines 619-624:
validate each index in turn, writing `discretized_phi_range[var_index]`
before moving to the next index, and raise at the first index that is not
an extended variable; afterwards regenerate the operators (line 625). -/
def setPhiLoop {R : Type} (phiRange : R) :
    PhiState R → List ℕ → PhiState R × Option PhiErr
  | s, [] => ({ s with operators_regenerated := true }, none)
  | s, i :: rest =>
    if i ∈ s.extended then
      setPhiLoop phiRange
        { s with discretized_phi_range :=
            fun j => if j = i then some phiRange else s.discretized_phi_range j }
        rest
    else (s, some PhiErr.varNotExtended)

/-- `Circuit.set_discretized_phi_range` (circuit.py lines 600-625). -/
def set_discretized_phi_range {R : Type} (s : PhiState R)
    (varIndices : List ℕ) (phiRange : R) : PhiState R × Option PhiErr :=
  if s.ext_basis ≠ ExtBasis.discretized then (s, some PhiErr.basisNotDiscretized)
  else setPhiLoop phiRange s varIndices

/-- A concrete state: extended variable 1 with a stored range 0. -/
def phiStateW : PhiState ℕ :=
  { ext_basis := ExtBasis.discretized, extended := [1],
    discretized_phi_range := fun j => if j = 1 then some 0 else none,
    operators_regenerated := false }

/-- Claim C8 counterexample: calling `set_discretized_phi_range([1, 2], 7)`
on a state whose only extended variable is 1 raises the validation error
for index 2, yet the range of index 1 — listed before the offending index —
has already been overwritten, so state is not left untouched. -/
theorem phi_range_error_leaves_state_counterexample :
    (set_discretized_phi_range phiStateW [1, 2] 7).2 = some PhiErr.varNotExtended ∧
    (set_discretized_phi_range phiStateW [1, 2] 7).1.discretized_phi_range 1 ≠
      phiStateW.discretized_phi_range 1 := by
  constructor
  · rfl
  · intro h
    have : (some 7 : Option ℕ) = some 0 := h
    exact absurd (Option.some.inj this) (by decide)

/-- Claim C8 as amended: the `ext_basis` validation failure leaves the
state untouched; a failure on a variable index raises before that index's
own entry is written and leaves `extended`, `ext_basis` and the operator
set untouched, but the ranges of the valid indices listed before the
offending one have already been overwritten. -/
theorem phi_range_error_partial_write_amended {R : Type} :
    (∀ (s : PhiState R) idxs r, s.ext_basis ≠ ExtBasis.discretized →
      set_discretized_phi_range s idxs r = (s, some PhiErr.basisNotDiscretized)) ∧
    (∀ (s : PhiState R) pre bad rest r, s.ext_basis = ExtBasis.discretized →
      (∀ i ∈ pre, i ∈ s.extended) → bad ∉ s.extended →
      ((set_discretized_phi_range s (pre ++ bad :: rest) r).2 =
          some PhiErr.varNotExtended ∧
        (set_discretized_phi_range s (pre ++ bad :: rest) r).1.ext_basis =
          s.ext_basis ∧
        (set_discretized_phi_range s (pre ++ bad :: rest) r).1.extended =
          s.extended ∧
        (set_discretized_phi_range s (pre ++ bad :: rest) r).1.operators_regenerated =
          s.operators_regenerated ∧
        ∀ j, (set_discretized_phi_range s (pre ++ bad :: rest) r).1.discretized_phi_range j =
          if j ∈ pre then some r else s.discretized_phi_range j)) := by
  have main : ∀ (pre : List ℕ) (s : PhiState R) (bad : ℕ) (rest : List ℕ) (r : R),
      (∀ i ∈ pre, i ∈ s.extended) → bad ∉ s.extended →
      ((setPhiLoop r s (pre ++ bad :: rest)).2 = some PhiErr.varNotExtended ∧
        (setPhiLoop r s (pre ++ bad :: rest)).1.ext_basis = s.ext_basis ∧
        (setPhiLoop r s (pre ++ bad :: rest)).1.extended = s.extended ∧
        (setPhiLoop r s (pre ++ bad :: rest)).1.operators_regenerated =
          s.operators_regenerated ∧
        ∀ j, (setPhiLoop r s (pre ++ bad :: rest)).1.discretized_phi_range j =
          if j ∈ pre then some r else s.discretized_phi_range j) := by
    intro pre
    induction pre with
    | nil =>
      intro s bad rest r _ hbad
      simp [setPhiLoop, hbad]
    | cons a pre ih =>
      intro s bad rest r hpre hbad
      have ha : a ∈ s.extended := hpre a (List.mem_cons_self a pre)
      simp only [List.cons_append, setPhiLoop, if_pos ha]
      have hres := ih { s with discretized_phi_range :=
          fun j => if j = a then some r else s.discretized_phi_range j } bad rest r
        (fun i hi => hpre i (List.mem_cons_of_mem a hi)) hbad
      refine ⟨hres.1, hres.2.1, hres.2.2.1, hres.2.2.2.1, ?_⟩
      intro j
      simp only [List.append_eq]
      rw [hres.2.2.2.2 j]
      by_cases hjp : j ∈ pre
      · simp [hjp, List.mem_cons_of_mem a hjp]
      · by_cases hja : j = a
        · simp [hjp, hja, List.mem_cons]
        · simp [hjp, hja, List.mem_cons]
  constructor
  · intro s idxs r h
    simp [set_discretized_phi_range, h]
  · intro s pre bad rest r hb hpre hbad
    have := main pre s bad rest r hpre hbad
    simpa [set_discretized_phi_range, hb] using this

/-- Claim C8 amended witness: valid index 1 written, index 2 rejected. -/
theorem phi_range_error_partial_write_amended_witness :
    (set_discretized_phi_range phiStateW ([1] ++ 2 :: []) 7).2 =
      some PhiErr.varNotExtended ∧
    (set_discretized_phi_range phiStateW ([1] ++ 2 :: []) 7).1.discretized_phi_range 1 =
      some 7 := by
  have h := (phi_range_error_partial_write_amended (R := ℕ)).2 phiStateW [1] 2 [] 7
    rfl (by decide) (by decide)
  refine ⟨h.1, ?_⟩
  rw [h.2.2.2.2 1]
  simp

/- ------------------------------------------------------------------ -/
/- Serialization round trip: circuit.py lines 627-715                  -/
/- ------------------------------------------------------------------ -/

/-- The circuit state relevant to the serialization round trip.
`configured_tmat` is the transformation matrix `symbolic_circuit.configure`
last used to generate the symbolic Hamiltonian (of which the numeric
Hamiltonian matrix is a function); `transformation_matrix` is the public
attribute copied back from the symbolic circuit after configure (circuit.py
lines 1048-1069); `private_tmat_attr` is the raw `_transformation_matrix`
attribute that `deserialize` writes (circuit.py line 711) and that no
regeneration path reads.  Matrices are abstracted as natural-number
tokens. -/
structure SerState where
  system_hierarchy : Option (List Hent)
  subsystem_trunc_dims : Option (List Tent)
  configured_tmat : ℕ
  transformation_matrix : ℕ
  private_tmat_attr : Option ℕ

/-- Modelled from the spec: `symbolic_circuit.configure` regenerates the
symbolic Hamiltonian from the given transformation matrix (or keeps the
current one when none is given), and `Circuit._configure` copies the matrix
back as the public attribute; the hierarchy fields follow circuit.py lines
1030-1031 and 1156-1163. -/
def serConfigure (s : SerState) (tm : Option ℕ) (hier : Option (List Hent))
    (trunc : Option (List Tent)) : SerState :=
  let effTM := tm.getD s.transformation_matrix
  { s with configured_tmat := effTM, transformation_matrix := effTM,
           system_hierarchy := pyOrL hier s.system_hierarchy,
           subsystem_trunc_dims := pyOrL trunc s.subsystem_trunc_dims }

/-- Modelled from the spec: constructing a `Circuit` from its init
parameters alone (the yaml string, basis completion, ext basis) runs the
initial configure with the transformation matrix the symbolic-graph builder
derives itself (`defaultTM`). -/
def circuitInit (defaultTM : ℕ) : SerState :=
  serConfigure
    { system_hierarchy := none, subsystem_trunc_dims := none,
      configured_tmat := defaultTM, transformation_matrix := defaultTM,
      private_tmat_attr := none }
    none none none

/-- The payload of `Circuit.dict_for_serialization` (circuit.py lines
627-662): the init parameters (standing in for the yaml string is the
transformation matrix `defaultTM` the builder would derive from it) plus
the modified attributes, among them `transformation_matrix`,
`system_hierarchy` and `subsystem_trunc_dims`. -/
structure SerPayload where
  defaultTM : ℕ
  transformation_matrix : ℕ
  system_hierarchy : Option (List Hent)
  subsystem_trunc_dims : Option (List Tent)

/-- `Circuit.dict_for_serialization` / `Circuit.serialize` (circuit.py
lines 627-667). -/
def serializeCircuit (defaultTM : ℕ) (s : SerState) : SerPayload :=
  { defaultTM := defaultTM,
    transformation_matrix := s.transformation_matrix,
    system_hierarchy := s.system_hierarchy,
    subsystem_trunc_dims := s.subsystem_trunc_dims }

/-- `Circuit.deserialize` (circuit.py lines 669-715): build the circuit
from the init parameters, call `configure` with `closure_branches`,
`system_hierarchy` and `subsystem_trunc_dims` only — the
`transformation_matrix` entry of `configure_attribs` is commented out at
line 696 — and afterwards write each remaining modified attribute to its
raw underscore-prefixed slot (line 711), which for the transformation
matrix is the `_transformation_matrix` attribute no rebuild path reads. -/
def deserializeCircuit (p : SerPayload) : SerState :=
  let c0 := circuitInit p.defaultTM
  let c1 := serConfigure c0 none p.system_hierarchy p.subsystem_trunc_dims
  { c1 with private_tmat_attr := some p.transformation_matrix }

/-- A circuit configured by the user with transformation matrix 5, where
the builder-derived default is 0. -/
def serOrig : SerState := serConfigure (circuitInit 0) (some 5) none none

/-- Claim C4: the payload serialized from a circuit carrying a
user-supplied transformation matrix does record that matrix, but the
reconstructed circuit's configure ran with the builder-derived default
matrix — the stored matrix lands only in the dead `_transformation_matrix`
attribute — so the regenerated Hamiltonian is built from a different
variable transformation than the original's and the round trip is not
faithful for user-supplied transformation matrices. -/
theorem deserialize_drops_transformation_matrix :
    serOrig.configured_tmat = 5 ∧
    (serializeCircuit 0 serOrig).transformation_matrix = 5 ∧
    (deserializeCircuit (serializeCircuit 0 serOrig)).configured_tmat = 0 ∧
    (deserializeCircuit (serializeCircuit 0 serOrig)).private_tmat_attr = some 5 ∧
    (deserializeCircuit (serializeCircuit 0 serOrig)).configured_tmat ≠
      serOrig.configured_tmat := by
  refine ⟨rfl, rfl, rfl, rfl, ?_⟩
  decide
